import Mathlib

/-!
Shallow embedding of the review-scraper core in
`src/app/api/scrape-reviews/route.ts`, together with theorems settling the
specification claims about it.

Conventions used throughout:
* JavaScript numbers that are only ever non-negative integers are `Nat`;
  the one place where a signed difference matters (`Date.now() - timestamp`)
  uses `Int`.
* A JavaScript function that can `throw` is embedded as `Except Unit _`
  (the thrown value itself is never inspected by the code).
* `Math.random()`-derived draws are embedded as explicit `Nat` parameters:
  `Math.floor(Math.random() * k)` ranges over `0 .. k-1`, which is modelled
  as `j % k` for an arbitrary `j : Nat`.
* The rendered DOM is embedded as an environment record describing which
  elements are present and what text they carry; `page.evaluate` bodies are
  pure functions of that environment.
-/

namespace ReviewCollector


/-- One review record, mirroring `interface Review` in the route. -/
structure Review where
  fullName : String
  stars : String
  reviewText : String
  datePosted : Option String := none
  reviewId : Option String := none
deriving Repr, DecidableEq

/-- The successful response shape, mirroring `interface ScraperResponse`.
Optional fields are `Option`; `undefined` is `none`. -/
structure ScraperResponse where
  businessName : Option String := none
  totalReviews : Option Nat := none
  averageRating : Option String := none
  reviews : List Review := []
deriving Repr, DecidableEq

/-- `CONFIG.MAX_REVIEWS` from the route. -/
def MAX_REVIEWS : Nat := 25

/-- `CONFIG.MAX_SCROLL_ATTEMPTS` from the route. -/
def MAX_SCROLL_ATTEMPTS : Nat := 10

/-- `CONFIG.CACHE_TTL` (seconds) from the route. -/
def CACHE_TTL : Nat := 3600

/-- `CONFIG.RETRY_ATTEMPTS` from the route. -/
def RETRY_ATTEMPTS : Nat := 3

/-- `CONFIG.USER_AGENTS` from the route. -/
def USER_AGENTS : List String :=
  ["Mozilla/5.0 (Windows NT 10.0; Win64; x64) AppleWebKit/537.36 (KHTML, like Gecko) Chrome/91.0.4472.124 Safari/537.36",
   "Mozilla/5.0 (Macintosh; Intel Mac OS X 10_15_7) AppleWebKit/537.36 (KHTML, like Gecko) Chrome/92.0.4515.131 Safari/537.36",
   "Mozilla/5.0 (Windows NT 10.0; Win64; x64; rv:90.0) Gecko/20100101 Firefox/90.0"]

/-!
## Scroll pagination engine

`scrapeReviewsWithScrolling` (route lines 245-301).  The virtualized feed is
embedded as a function `feed : Nat → List Review` giving the extraction
result after `k` scroll steps (`feed 0` is the extraction performed before
the loop).  The `while` loop is embedded with the remaining loop iterations
(`MAX_SCROLL_ATTEMPTS - scrollAttempts`) as structural fuel.

JS source of the loop body:
  while (scrollAttempts < CONFIG.MAX_SCROLL_ATTEMPTS) \x7b
    await smoothScroll(...); ...
    const newReviews = await extractReviews();
    if (newReviews.length === previousLength || newReviews.length >= CONFIG.MAX_REVIEWS) \x7b
      reviews = newReviews; break; \x7d
    previousLength = newReviews.length;
    scrollAttempts++; \x7d
Note that `reviews` is only reassigned in the break branch: when the loop
exhausts its attempts, the value extracted before the loop is returned.
-/

/-- Loop body of `scrapeReviewsWithScrolling`: `i` is the number of scroll
steps already triggered (the next extraction reads `feed i`),
`previousLength` and `reviews` are the JS locals, and the last argument is
the number of loop iterations still allowed. -/
def scrollLoopGo (feed : Nat → List Review) :
    Nat → Nat → List Review → Nat → List Review
  | _, _, reviews, 0 => reviews
  | i, previousLength, reviews, fuel + 1 =>
    if (feed i).length = previousLength ∨ MAX_REVIEWS ≤ (feed i).length then
      feed i
    else
      scrollLoopGo feed (i + 1) (feed i).length reviews fuel

/-- `scrapeReviewsWithScrolling` for a simulated feed: extract once, then
loop up to `MAX_SCROLL_ATTEMPTS` times. -/
def scrapeReviewsWithScrolling (feed : Nat → List Review) : List Review :=
  scrollLoopGo feed 1 0 (feed 0) MAX_SCROLL_ATTEMPTS

/-- A feed "stops growing after `N` reveals": every extraction from the
`N`-th reveal onward returns the same list. -/
def stagnatesAt (feed : Nat → List Review) (N : Nat) : Prop :=
  ∀ k, N ≤ k → feed k = feed N

/-- Helper to build distinct concrete reviews for simulated feeds. -/
def mkReview (n : Nat) : Review :=
  { fullName := "user" ++ toString n, stars := "5 stars", reviewText := "ok" }

/-- A simulated feed that grows by one item per reveal and stagnates at 11
items: still growing when the 10 loop iterations run out. -/
def feedEleven (k : Nat) : List Review := (List.range (min k 11)).map mkReview

/-- A simulated feed that stagnates after 2 reveals with 2 items. -/
def feedTwo (k : Nat) : List Review := (List.range (min k 2)).map mkReview

/-- A simulated feed that jumps to 30 items on the first reveal and stays
there: a single extraction overshoots `MAX_REVIEWS`. -/
def feedThirty (k : Nat) : List Review :=
  if k = 0 then [] else (List.range 30).map mkReview

/-!
## Retry/backoff orchestrator

`withRetry` (route lines 141-156).  A throwing attempt is `Except E T`
(`.error` = thrown).  The JS loop `for (attempt = 0; attempt < maxRetries;
attempt++)` is embedded with the remaining attempts as structural fuel;
after the loop the code does `throw lastError`, where `lastError` starts as
`null` — hence the final result type `Except (Option E) T`.  Between failed
attempts (only when `attempt < maxRetries - 1`) the code sleeps
`randomDelay(1000 * 2^attempt, 3000 * 2^attempt)`.
-/

/-- Value slept by `randomDelay(mn, mx)`: the draw
`Math.floor(Math.random() * (mx - mn + 1))` ranges over `0 .. mx - mn`,
embedded as `j % (mx - mn + 1)` for the draw parameter `j`. -/
def delayValue (mn mx j : Nat) : Nat := mn + j % (mx - mn + 1)

/-- Lower bound `1000 * Math.pow(2, attempt)` of the inter-attempt delay. -/
def retryDelayMin (attempt : Nat) : Nat := 1000 * 2 ^ attempt

/-- Upper bound `3000 * Math.pow(2, attempt)` of the inter-attempt delay. -/
def retryDelayMax (attempt : Nat) : Nat := 3000 * 2 ^ attempt

/-- The concrete delay slept after failed attempt `attempt`, given the
random draw `j`. -/
def retryDelayValue (attempt j : Nat) : Nat :=
  delayValue (retryDelayMin attempt) (retryDelayMax attempt) j

/-- Observable trace of one `withRetry` execution: final result (a thrown
`lastError` is `.error`), number of invocations of the attempt function,
and the inter-attempt delays in order. -/
structure RetryRun (E T : Type) where
  result : Except (Option E) T
  calls : Nat
  delays : List Nat

/-- Loop of `withRetry`: `attempt` is the JS loop counter and the `Nat`
argument is the number of iterations left (`maxRetries - attempt`);
`last` is the current value of `lastError`. -/
def withRetryGo {E T : Type} (fn : Nat → Except E T) (jitter : Nat → Nat) :
    Nat → Nat → Option E → RetryRun E T
  | _, 0, last => ⟨.error last, 0, []⟩
  | attempt, remaining + 1, _ =>
    match fn attempt with
    | .ok v => ⟨.ok v, 1, []⟩
    | .error e =>
      if remaining = 0 then ⟨.error (some e), 1, []⟩
      else
        let rest := withRetryGo fn jitter (attempt + 1) remaining (some e)
        ⟨rest.result, rest.calls + 1,
         retryDelayValue attempt (jitter attempt) :: rest.delays⟩

/-- `withRetry(fn, maxRetries)`, with the attempt outcomes indexed by
attempt number and the delay draws given by `jitter`. -/
def withRetry {E T : Type} (fn : Nat → Except E T) (jitter : Nat → Nat)
    (maxRetries : Nat) : RetryRun E T :=
  withRetryGo fn jitter 0 maxRetries none

/-- Always-throwing attempt function used by the C7 counterexample. -/
def alwaysFailFn : Nat → Except Nat Unit := fun _ => .error 0

/-- Jitter draws for the C7 counterexample: the maximal draw on attempt 0
(delay `3000`), the minimal draw on attempt 1 (delay `2000`). -/
def overlapJitter : Nat → Nat := fun i => if i = 0 then 2000 else 0

/-!
## Extraction pipeline

`extractBusinessInfo` (route lines 224-243).  The DOM is embedded as, for
each queried element, `Option (Option String)`: `none` = element absent,
`some txt` = element present with `textContent` `txt` (inner `none` =
`null`).
-/

/-- Model of `el?.textContent?.trim() || undefined`: `none` when the
element is absent, its text is `null`, or the trimmed text is empty (a JS
falsy string). -/
def textOrNone (el : Option (Option String)) : Option String :=
  match el with
  | some (some t) => if t.trim = "" then none else some t.trim
  | _ => none

/-- `text.replace(/[^0-9]/g, '')`. -/
def stripNonDigits (s : String) : String :=
  String.mk (s.data.filter Char.isDigit)

/-- `parseInt` on the all-digit decimal strings it is given here (either
the stripped digits or the `'0'` default): the decimal value. -/
def parseIntDec (s : String) : Nat :=
  s.data.foldl (fun a c => a * 10 + (c.toNat - Char.toNat '0')) 0

/-- The `totalReviews` field of `extractBusinessInfo`:
`totalReviewsEl ? parseInt(totalReviewsEl.textContent?.replace(/[^0-9]/g, '') || '0') : undefined`. -/
def totalReviewsOf (el : Option (Option String)) : Option Nat :=
  match el with
  | none => none
  | some txt =>
    let digits := stripNonDigits (txt.getD (""))
    some (parseIntDec (if digits = "" then "0" else digits))

/-- DOM state read by `extractBusinessInfo`'s `page.evaluate`. -/
structure BizDom where
  businessNameText : Option (Option String) := none
  businessRatingText : Option (Option String) := none
  totalReviewsText : Option (Option String) := none
deriving Repr, DecidableEq

/-- Result of `extractBusinessInfo` (`Partial<ScraperResponse>` without
the review list). -/
structure BizInfo where
  businessName : Option String := none
  averageRating : Option String := none
  totalReviews : Option Nat := none
deriving Repr, DecidableEq

/-- `extractBusinessInfo`: its body is wrapped in a `try/catch` returning
the empty object on failure, so it never throws; `ok = false` is the catch
path. -/
def extractBusinessInfo (ok : Bool) (dom : BizDom) : BizInfo :=
  if ok then
    { businessName := textOrNone dom.businessNameText,
      averageRating := textOrNone dom.businessRatingText,
      totalReviews := totalReviewsOf dom.totalReviewsText }
  else {}

/-- A concrete total-reviews label with no digit characters. -/
def noDigitsText : String := "No reviews yet"

/-!
## Session manager and one full scrape attempt

`scrapeMapReviews` (route lines 158-210).  Each awaited browser/page
operation either succeeds or throws; the environment records which, plus
the DOM state presented.  `handleConsentIfNeeded` swallows its own errors
and `extractBusinessInfo` catches internally, so neither can throw into
this function.
-/

/-- Error message of the missing-reviews-button path. -/
def noFeedMsg : String := "No reviews found for this location"

/-- Error message of the missing-container path. -/
def containerMissingMsg : String := "Reviews container not found"

/-- Error message of the outer catch of `scrapeMapReviews`. -/
def techFailureMsg : String := "Failed to scrape reviews due to technical issues"

/-- Outcome returned (as opposed to thrown) by `scrapeMapReviews`: a
`ScraperResponse` or an `ErrorResponse` with its message. -/
inductive ScrapeOutcome where
  | success (r : ScraperResponse)
  | failure (msg : String)
deriving Repr, DecidableEq

/-- Environment of one scrape attempt.  A `false` flag means the
corresponding awaited operation throws. -/
structure AttemptEnv where
  launchOk : Bool := true
  pageSetupOk : Bool := true
  gotoOk : Bool := true
  bizEvalOk : Bool := true
  dom : BizDom := {}
  reviewsButtonOk : Bool := true
  containerOk : Bool := true
  scrollOk : Bool := true
  feed : Nat → List Review := fun _ => []
  closeOk : Bool := true

/-- The `try` block of `scrapeMapReviews`: `.error ()` is an exception
propagating to the outer `catch`; the two inner `try/catch`es around the
reviews button and the container turn their failures into returned
`ErrorResponse`s. -/
def scrapeAttemptBody (env : AttemptEnv) : Except Unit ScrapeOutcome :=
  if env.pageSetupOk = false then .error () else
  if env.gotoOk = false then .error () else
  let businessInfo := extractBusinessInfo env.bizEvalOk env.dom
  if env.reviewsButtonOk = false then .ok (.failure noFeedMsg) else
  if env.containerOk = false then .ok (.failure containerMissingMsg) else
  if env.scrollOk = false then .error () else
  .ok (.success
    { businessName := businessInfo.businessName,
      totalReviews := businessInfo.totalReviews,
      averageRating := businessInfo.averageRating,
      reviews := scrapeReviewsWithScrolling env.feed })

/-- `scrapeMapReviews`: launch the browser, then run the body under
`try/catch/finally` where the catch returns the technical-failure response
and the finally awaits `browser.close()` (whose own failure propagates).
Returns the call's outcome (`.error ()` = the call throws) paired with the
number of `browser.close()` invocations. -/
def scrapeMapReviews (env : AttemptEnv) : Except Unit ScrapeOutcome × Nat :=
  if env.launchOk = false then (.error (), 0)
  else
    let caught : Except Unit ScrapeOutcome :=
      match scrapeAttemptBody env with
      | .error () => .ok (.failure techFailureMsg)
      | .ok r => .ok r
    if env.closeOk then (caught, 1) else (.error (), 1)

/-- All-defaults environment: every step succeeds, empty DOM and feed. -/
def envAllOk : AttemptEnv := {}

/-- Environment in which the reviews button never appears: the attempt
returns the `NoFeedFound` outcome. -/
def envNoFeed : AttemptEnv := { reviewsButtonOk := false }

/-!
## Fingerprint selector

Route lines 159 and 174-177: a user agent drawn from `CONFIG.USER_AGENTS`
and a jittered viewport.  `Math.floor(Math.random() * k)` ranges over
`0 .. k-1` and is embedded as `r % k`.
-/

/-- `CONFIG.USER_AGENTS[Math.floor(Math.random() * CONFIG.USER_AGENTS.length)]`. -/
def chooseUserAgent (r : Nat) : String :=
  USER_AGENTS.getD (r % USER_AGENTS.length) ("")

/-- `page.setViewport` with `width: 1366 + Math.floor(Math.random() * 100)`
and `height: 768 + Math.floor(Math.random() * 100)`. -/
def randomViewport (a b : Nat) : Nat × Nat := (1366 + a % 100, 768 + b % 100)

/-- Viewport presented by attempt `i` under a stream of random draws. -/
def viewportAt (draws : Nat → Nat × Nat) (i : Nat) : Nat × Nat :=
  randomViewport (draws i).1 (draws i).2

/-!
## Result cache and the `GET` handler

Route lines 63-64 and 104-139.  The cache
`const cache: Record<string, \x7b data; timestamp \x7d> = \x7b\x7d` is embedded as an
association list; `Date.now()` is the `Int` parameter `now`.  The cache
key is `encodeURIComponent(searchTerm.toLowerCase())`.
-/

/-- Model of JS `String.prototype.toLowerCase` on the ASCII range (the
only range exercised here): per-character lower-casing. -/
def jsToLower (s : String) : String := String.mk (s.data.map Char.toLower)

/-- Characters left unescaped by `encodeURIComponent`:
ASCII alphanumerics and `- _ . ! ~ * ' ( )`. -/
def isUnreservedURI (c : Char) : Bool :=
  c.isAlphanum || c = '-' || c = '_' || c = '.' || c = '!' || c = '~' ||
    c = '*' || c = '\'' || c = '(' || c = ')'

/-- Upper-case hexadecimal digit for `n < 16`. -/
def hexDigitChar (n : Nat) : Char :=
  if n < 10 then Char.ofNat (Char.toNat '0' + n)
  else Char.ofNat (Char.toNat 'A' + n - 10)

/-- UTF-8 encoding of one code point, as byte values. -/
def utf8Bytes (c : Char) : List Nat :=
  if c.toNat < 128 then [c.toNat]
  else if c.toNat < 2048 then [192 + c.toNat / 64, 128 + c.toNat % 64]
  else if c.toNat < 65536 then
    [224 + c.toNat / 4096, 128 + c.toNat / 64 % 64, 128 + c.toNat % 64]
  else [240 + c.toNat / 262144, 128 + c.toNat / 4096 % 64,
        128 + c.toNat / 64 % 64, 128 + c.toNat % 64]

/-- `%XX` escape of one byte. -/
def percentEncodeByte (b : Nat) : List Char :=
  ['%', hexDigitChar (b / 16), hexDigitChar (b % 16)]

/-- Per-character output of `encodeURIComponent`. -/
def encodeChar (c : Char) : List Char :=
  if isUnreservedURI c then [c] else (utf8Bytes c).flatMap percentEncodeByte

/-- JS `encodeURIComponent`: unreserved characters kept, everything else
percent-escaped per UTF-8 byte. -/
def encodeURIComponent (s : String) : String :=
  String.mk (s.data.flatMap encodeChar)

/-- The cache key of the route:
`encodeURIComponent(searchTerm.toLowerCase())`. -/
def cacheKey (searchTerm : String) : String :=
  encodeURIComponent (jsToLower searchTerm)

/-- Hexadecimal digit value, accepting both cases. -/
def hexVal (c : Char) : Option Nat :=
  if '0' ≤ c ∧ c ≤ '9' then some (c.toNat - Char.toNat '0')
  else if 'A' ≤ c ∧ c ≤ 'F' then some (c.toNat - Char.toNat 'A' + 10)
  else if 'a' ≤ c ∧ c ≤ 'f' then some (c.toNat - Char.toNat 'a' + 10)
  else none

/-- Percent-decoding written from the spec's words ("percent-decoded"),
used only to state what claim C8 asserts about the key; the route itself
never decodes. -/
def specPercentDecodeChars : List Char → List Char
  | [] => []
  | '%' :: a :: b :: rest =>
    match hexVal a, hexVal b with
    | some x, some y => Char.ofNat (16 * x + y) :: specPercentDecodeChars rest
    | _, _ => '%' :: specPercentDecodeChars (a :: b :: rest)
  | c :: rest => c :: specPercentDecodeChars rest

/-- The spec's normalization of a query: case-folded then
percent-decoded. -/
def specNormalize (s : String) : String :=
  String.mk (specPercentDecodeChars (jsToLower s).data)

/-- A raw query containing a literal space. -/
def queryRaw1 : String := "a b"

/-- The same query with the space percent-encoded. -/
def queryRaw2 : String := "a%20b"

/-- One cache entry: `{ data, timestamp }`. -/
structure CacheRec where
  data : ScraperResponse
  timestamp : Int
deriving Repr, DecidableEq

/-- Lookup in the association-list embedding of the record object. -/
def lookupCache : List (String × CacheRec) → String → Option CacheRec
  | [], _ => none
  | (k, r) :: rest, key => if k = key then some r else lookupCache rest key

/-- Observable result of one `GET` request: HTTP status, body, whether a
scrape (the `withRetry` call) was performed, and the cache contents after
the request. -/
structure GetResult where
  status : Nat
  body : Except String ScraperResponse
  scraped : Bool
  cacheAfter : List (String × CacheRec)
deriving Repr

/-- Message of the 400 response. -/
def invalidQueryMsg : String := "searchTerm is required"

/-- Message of the 500 response. -/
def exhaustedMsg : String := "Failed to scrape reviews"

/-- The scrape-and-respond tail of `GET`: run `withRetry` over the per-
attempt environments; a throw out of it becomes the 500 response, a
returned `ErrorResponse` the 404 response, a `ScraperResponse` the 200
response.  Faithful to the source: no branch writes to the cache —
`cache[cacheKey] = ...` does not occur anywhere in the route. -/
def scrapeAndRespond (cache : List (String × CacheRec))
    (envs : Nat → AttemptEnv) (jitter : Nat → Nat) : GetResult :=
  match (withRetry (fun i => (scrapeMapReviews (envs i)).1) jitter
      RETRY_ATTEMPTS).result with
  | .error _ => ⟨500, .error exhaustedMsg, true, cache⟩
  | .ok (.failure msg) => ⟨404, .error msg, true, cache⟩
  | .ok (.success d) => ⟨200, .ok d, true, cache⟩

/-- The `GET` route handler.  `searchTerm`/`skipCacheParam` model
`searchParams.get(...)` (`none` = `null`); JS `!searchTerm` is also true
for the empty string.  `envs i` is the environment met by retry attempt
`i`. -/
def GETHandler (searchTerm skipCacheParam : Option String)
    (cache : List (String × CacheRec)) (now : Int)
    (envs : Nat → AttemptEnv) (jitter : Nat → Nat) : GetResult :=
  match searchTerm with
  | none => ⟨400, .error invalidQueryMsg, false, cache⟩
  | some q =>
    if q = "" then ⟨400, .error invalidQueryMsg, false, cache⟩
    else
      let skipCache := skipCacheParam = some ("true")
      match lookupCache cache (cacheKey q) with
      | some entry =>
        if ¬skipCache ∧ now - entry.timestamp < (CACHE_TTL : Int) * 1000 then
          ⟨200, .ok entry.data, false, cache⟩
        else scrapeAndRespond cache envs jitter
      | none => scrapeAndRespond cache envs jitter

/-- Concrete fresh cache entry for the `skipCache_exact_true` witness. -/
def entryW : CacheRec := ⟨{ reviews := [] }, 0⟩

/-- Concrete cache holding `entryW` under the key of `"cafe"`. -/
def cacheW : List (String × CacheRec) := [(cacheKey ("cafe"), entryW)]

/-!
## Theorems

All claim theorems, their witnesses and counterexamples, and the helper
lemmas they rest on.
-/

/-- Review counts are monotone along a feed whose consecutive extractions
strictly grow up to reveal `N`. -/
theorem scroll_len_mono (feed : Nat → List Review) (N : Nat)
    (hmono : ∀ i, i < N → (feed i).length < (feed (i + 1)).length) :
    ∀ i j, i ≤ j → j ≤ N → (feed i).length ≤ (feed j).length := by
  intro i j hij hjN
  induction j, hij using Nat.le_induction with
  | base => exact le_refl _
  | succ j hij ih =>
    exact le_trans (ih (by omega)) (le_of_lt (hmono j (by omega)))

/-- Running the scroll loop from iteration `j` with a previous count below
the current extraction's count reaches the stagnation extraction, given
strictly growing counts below the cap up to reveal `N` and enough fuel. -/
theorem scrollLoopGo_converges (feed : Nat → List Review) (N : Nat)
    (hstag : stagnatesAt feed N)
    (hmono : ∀ i, i < N → (feed i).length < (feed (i + 1)).length)
    (hcap : (feed N).length < MAX_REVIEWS) :
    ∀ d j p init f, j + d = N → 1 ≤ j → p < (feed j).length →
      N - j + 2 ≤ f → scrollLoopGo feed j p init f = feed N := by
  intro d
  induction d with
  | zero =>
    intro j p init f hjd _ hp hf
    obtain ⟨f', rfl⟩ : ∃ f', f = f' + 2 := ⟨f - 2, by omega⟩
    have hj : j = N := by omega
    subst hj
    simp only [scrollLoopGo]
    rw [if_neg (by omega)]
    have hnext : feed (j + 1) = feed j := hstag (j + 1) (by omega)
    rw [if_pos (by rw [hnext]; left; rfl)]
    exact hnext
  | succ d ih =>
    intro j p init f hjd h1 hp hf
    obtain ⟨f', rfl⟩ : ∃ f', f = f' + 1 := ⟨f - 1, by omega⟩
    have hjN : j < N := by omega
    have hle : (feed j).length ≤ (feed N).length :=
      scroll_len_mono feed N hmono j N (by omega) (le_refl _)
    simp only [scrollLoopGo]
    rw [if_neg (by omega)]
    exact ih (j + 1) (feed j).length init f' (by omega) (by omega)
      (hmono j hjN) (by omega)

/-- C3 (amended): for a simulated feed that stagnates at reveal `N ≥ 1`,
whose consecutive extraction counts strictly grow until stagnation and stay
below the cap, the scroll loop needs at most `N + 1` iterations of fuel and
returns exactly the stagnation extraction; in particular the real loop
(`MAX_SCROLL_ATTEMPTS` fuel) does so whenever `N + 1 ≤ MAX_SCROLL_ATTEMPTS`. -/
theorem scroll_convergence (feed : Nat → List Review) (N : Nat)
    (hN : 1 ≤ N) (hstag : stagnatesAt feed N)
    (hmono : ∀ i, i < N → (feed i).length < (feed (i + 1)).length)
    (hcap : (feed N).length < MAX_REVIEWS) :
    (∀ f, N + 1 ≤ f → scrollLoopGo feed 1 0 (feed 0) f = feed N) ∧
    (N + 1 ≤ MAX_SCROLL_ATTEMPTS → scrapeReviewsWithScrolling feed = feed N) := by
  have h1 : ∀ f, N + 1 ≤ f → scrollLoopGo feed 1 0 (feed 0) f = feed N := by
    intro f hf
    have hp : 0 < (feed 1).length := by
      have h := hmono 0 (by omega)
      simp only [Nat.zero_add] at h
      omega
    exact scrollLoopGo_converges feed N hstag hmono hcap (N - 1) 1 0 (feed 0) f
      (by omega) (by omega) hp (by omega)
  exact ⟨h1, fun hN10 => h1 MAX_SCROLL_ATTEMPTS hN10⟩

/-- Witness for `scroll_convergence`: the feed stagnating at reveal 2 with
2 items is collected exactly. -/
theorem scroll_convergence_witness :
    stagnatesAt feedTwo 2 ∧ scrapeReviewsWithScrolling feedTwo = feedTwo 2 := by
  have hstag : stagnatesAt feedTwo 2 := by
    intro k hk
    simp [feedTwo, Nat.min_eq_right hk]
  exact ⟨hstag,
    (scroll_convergence feedTwo 2 (by omega) hstag (by decide) (by decide)).2
      (by decide)⟩

/-- C3 (counterexample): the feed that grows by one item per reveal and
stagnates only at reveal 11 defeats the claim as stated — the loop runs out
of its 10 iterations and returns the pre-loop extraction (the empty list),
not the items present at stagnation. -/
theorem scroll_stagnation_counterexample :
    stagnatesAt feedEleven 11 ∧
    scrapeReviewsWithScrolling feedEleven ≠ feedEleven 11 := by
  constructor
  · intro k hk
    simp [feedEleven, Nat.min_eq_right hk]
  · decide

/-- Every scroll-loop run returns either the pre-loop extraction or the
extraction of some reveal reached within the fuel window. -/
theorem scrollLoopGo_result (feed : Nat → List Review) :
    ∀ fuel i p init, scrollLoopGo feed i p init fuel = init ∨
      ∃ j, i ≤ j ∧ j < i + fuel ∧ scrollLoopGo feed i p init fuel = feed j := by
  intro fuel
  induction fuel with
  | zero => intro i p init; left; rfl
  | succ fuel ih =>
    intro i p init
    simp only [scrollLoopGo]
    split
    · right; exact ⟨i, le_refl _, by omega, rfl⟩
    · rcases ih (i + 1) (feed i).length init with h | ⟨j, hj1, hj2, hj3⟩
      · left; exact h
      · right; exact ⟨j, by omega, by omega, hj3⟩

/-- C4 (amended): the scroll loop stops as soon as an extraction reaches
`MAX_REVIEWS`, but it returns the latest extraction without truncation, so
the result is bounded by the cap only when every extraction within the
attempt window is itself bounded by the cap. -/
theorem scroll_cap_bound (feed : Nat → List Review)
    (hcap : ∀ k, k ≤ MAX_SCROLL_ATTEMPTS → (feed k).length ≤ MAX_REVIEWS) :
    (scrapeReviewsWithScrolling feed).length ≤ MAX_REVIEWS := by
  have h10 : MAX_SCROLL_ATTEMPTS = 10 := rfl
  rcases scrollLoopGo_result feed MAX_SCROLL_ATTEMPTS 1 0 (feed 0) with h | ⟨j, _, hj2, hj3⟩
  · unfold scrapeReviewsWithScrolling
    rw [h]
    exact hcap 0 (by omega)
  · unfold scrapeReviewsWithScrolling
    rw [hj3]
    exact hcap j (by omega)

/-- Witness for `scroll_cap_bound` on the feed growing by one item per
reveal. -/
theorem scroll_cap_bound_witness :
    (∀ k, k ≤ MAX_SCROLL_ATTEMPTS → (feedEleven k).length ≤ MAX_REVIEWS) ∧
    (scrapeReviewsWithScrolling feedEleven).length ≤ MAX_REVIEWS := by
  have hcap : ∀ k, k ≤ MAX_SCROLL_ATTEMPTS → (feedEleven k).length ≤ MAX_REVIEWS := by
    intro k _
    simp only [feedEleven, List.length_map, List.length_range, MAX_REVIEWS]
    omega
  exact ⟨hcap, scroll_cap_bound feedEleven hcap⟩

/-- C4 (counterexample): a feed whose first reveal jumps straight to 30
items makes the loop stop at the cap but return all 30 items — more than
`MAX_REVIEWS = 25`. -/
theorem scroll_cap_counterexample :
    MAX_REVIEWS < (scrapeReviewsWithScrolling feedThirty).length := by
  decide

/-- One-step unfolding of `withRetryGo` with fuel left. -/
theorem withRetryGo_succ {E T : Type} (fn : Nat → Except E T)
    (jitter : Nat → Nat) (attempt remaining : Nat) (last : Option E) :
    withRetryGo fn jitter attempt (remaining + 1) last =
      match fn attempt with
      | .ok v => ⟨.ok v, 1, []⟩
      | .error e =>
        if remaining = 0 then ⟨.error (some e), 1, []⟩
        else
          ⟨(withRetryGo fn jitter (attempt + 1) remaining (some e)).result,
           (withRetryGo fn jitter (attempt + 1) remaining (some e)).calls + 1,
           retryDelayValue attempt (jitter attempt) ::
             (withRetryGo fn jitter (attempt + 1) remaining (some e)).delays⟩ := by
  rfl

/-- Full characterization of `withRetryGo` when every attempt throws. -/
theorem withRetryGo_allFail {E T : Type} (fn : Nat → Except E T)
    (err : Nat → E) (hfn : ∀ i, fn i = .error (err i)) (jitter : Nat → Nat) :
    ∀ r attempt last,
      withRetryGo fn jitter attempt (r + 1) last =
        ⟨.error (some (err (attempt + r))), r + 1,
         (List.range r).map
           (fun k => retryDelayValue (attempt + k) (jitter (attempt + k)))⟩ := by
  intro r
  induction r with
  | zero =>
    intro attempt last
    rw [withRetryGo_succ, hfn attempt]
    simp
  | succ r ih =>
    intro attempt last
    rw [withRetryGo_succ, hfn attempt]
    simp only [Nat.succ_ne_zero, if_false]
    rw [ih (attempt + 1) (some (err attempt))]
    have hidx : attempt + 1 + r = attempt + (r + 1) := by omega
    have hmap : ∀ k, attempt + 1 + k = attempt + (k + 1) := fun k => by omega
    simp [RetryRun.mk.injEq, hidx, List.range_succ_eq_map, List.map_cons,
      List.map_map, Function.comp, Nat.add_zero, hmap]

/-- C7 (amended): when every invocation throws, `withRetry` invokes the
attempt function exactly `maxRetries` times, sleeps exactly
`maxRetries - 1` inter-attempt delays (none after the last attempt), each
delay lying in the jittered exponential band
`[1000 * 2^attempt, 3000 * 2^attempt]`, and finally rethrows the error of
the last invocation unchanged.  (Consecutive bands overlap, so the delays
need not be strictly increasing — see the counterexample.) -/
theorem withRetry_exhaustion {E T : Type} (fn : Nat → Except E T)
    (err : Nat → E) (jitter : Nat → Nat) (maxRetries : Nat)
    (hfn : ∀ i, fn i = .error (err i)) (hpos : 1 ≤ maxRetries) :
    (withRetry fn jitter maxRetries).calls = maxRetries ∧
    (withRetry fn jitter maxRetries).result =
      .error (some (err (maxRetries - 1))) ∧
    (withRetry fn jitter maxRetries).delays =
      (List.range (maxRetries - 1)).map
        (fun k => retryDelayValue k (jitter k)) ∧
    ∀ attempt j, retryDelayMin attempt ≤ retryDelayValue attempt j ∧
      retryDelayValue attempt j ≤ retryDelayMax attempt := by
  obtain ⟨r, rfl⟩ : ∃ r, maxRetries = r + 1 := ⟨maxRetries - 1, by omega⟩
  rw [withRetry, withRetryGo_allFail fn err hfn jitter r 0 none]
  refine ⟨rfl, by simp, by simp, ?_⟩
  intro attempt j
  unfold retryDelayValue delayValue retryDelayMin retryDelayMax
  have hP : 0 < 2 ^ attempt := Nat.pos_pow_of_pos attempt (by omega)
  have hmod : j % (3000 * 2 ^ attempt - 1000 * 2 ^ attempt + 1) <
      3000 * 2 ^ attempt - 1000 * 2 ^ attempt + 1 := Nat.mod_lt _ (by omega)
  constructor
  · exact Nat.le_add_right _ _
  · omega

/-- Witness for `withRetry_exhaustion` at a concrete always-throwing
attempt function with zero jitter draws and `maxRetries = 3`. -/
theorem withRetry_exhaustion_witness :
    (withRetry (fun i => (.error i : Except Nat Unit)) (fun _ => 0) 3).calls = 3 ∧
    (withRetry (fun i => (.error i : Except Nat Unit)) (fun _ => 0) 3).result =
      .error (some 2) ∧
    (withRetry (fun i => (.error i : Except Nat Unit)) (fun _ => 0) 3).delays =
      [1000, 2000] := by
  have h := withRetry_exhaustion (fun i => (.error i : Except Nat Unit))
    (fun i => i) (fun _ => 0) 3 (fun _ => rfl) (by omega)
  exact ⟨h.1, by rw [h.2.1], by rw [h.2.2.1]; rfl⟩

/-- C7 (counterexample): the jitter bands of consecutive attempts overlap
(`[1000, 3000]` then `[2000, 6000]`), so there are valid draws under which
the inter-attempt delays are `[3000, 2000]` — not strictly increasing,
refuting the claim as stated. -/
theorem withRetry_delays_counterexample :
    (withRetry alwaysFailFn overlapJitter 3).calls = 3 ∧
    (withRetry alwaysFailFn overlapJitter 3).delays = [3000, 2000] ∧
    ¬ List.Chain' (· < ·) (withRetry alwaysFailFn overlapJitter 3).delays := by
  refine ⟨rfl, rfl, ?_⟩
  have h2 : (withRetry alwaysFailFn overlapJitter 3).delays = [3000, 2000] := rfl
  rw [h2]
  intro h
  rcases List.chain'_cons.mp h with ⟨hlt, -⟩
  omega

/-- C5 (counterexample): with the total-reviews element present but its
text containing no digits, the stripped string is empty, yet the field is
parsed from the `'0'` default and set to `some 0` — not omitted as the
claim states. -/
theorem totalReviews_zero_counterexample :
    stripNonDigits noDigitsText = "" ∧
    totalReviewsOf (some (some noDigitsText)) = some 0 := by
  constructor <;> rfl

/-- C5 (amended): `totalReviews` is omitted exactly when the element is
absent; when the element is present the field is always populated with the
decimal value of the stripped digits, which is `0` (via the explicit `'0'`
fallback) when no digits remain. -/
theorem totalReviews_characterization :
    (∀ el, totalReviewsOf el = none ↔ el = none) ∧
    ∀ txt : Option String, totalReviewsOf (some txt) =
      some (parseIntDec (stripNonDigits (txt.getD ("")))) := by
  constructor
  · intro el
    cases el with
    | none => simp [totalReviewsOf]
    | some txt => simp [totalReviewsOf]
  · intro txt
    unfold totalReviewsOf
    dsimp only
    split
    · next h => rw [h]; rfl
    · rfl

/-- C6: whenever the browser launch succeeds, `browser.close()` is invoked
exactly once before the attempt finishes — on the success path, on the
returned-error paths (no feed / container missing), and on every thrown
exception, including a failing close itself. -/
theorem browser_close_once (env : AttemptEnv) (h : env.launchOk = true) :
    (scrapeMapReviews env).2 = 1 := by
  cases hc : env.closeOk <;> simp [scrapeMapReviews, h, hc]

/-- Witness for `browser_close_once` on the all-success environment. -/
theorem browser_close_once_witness :
    envAllOk.launchOk = true ∧ (scrapeMapReviews envAllOk).2 = 1 :=
  ⟨rfl, browser_close_once envAllOk rfl⟩

/-- Helper: an attempt function whose first invocation returns normally is
invoked exactly once by `withRetry`, which surfaces that value. -/
theorem withRetry_ok {E T : Type} (fn : Nat → Except E T) (v : T)
    (h : fn 0 = .ok v) (jitter : Nat → Nat) (n : Nat) (hn : 1 ≤ n) :
    (withRetry fn jitter n).calls = 1 ∧
    (withRetry fn jitter n).result = .ok v := by
  obtain ⟨m, rfl⟩ : ∃ m, n = m + 1 := ⟨n - 1, by omega⟩
  rw [withRetry, withRetryGo_succ, h]
  exact ⟨rfl, rfl⟩

/-- C2 (amended): when the browser launches and closes successfully, a
scrape attempt never throws — `NoFeedFound`, `FeedContainerMissing` and
internal technical failures are all returned, not thrown — so the retry
orchestrator, which retries only thrown errors, performs exactly one
invocation and surfaces that first outcome.  Only a throw (e.g. a launch
or close failure) triggers further attempts. -/
theorem returned_outcomes_not_retried (env : AttemptEnv) (jitter : Nat → Nat)
    (n : Nat) (h1 : env.launchOk = true) (h2 : env.closeOk = true)
    (hn : 1 ≤ n) :
    ∃ out, (scrapeMapReviews env).1 = .ok out ∧
      (withRetry (fun _ => (scrapeMapReviews env).1) jitter n).calls = 1 ∧
      (withRetry (fun _ => (scrapeMapReviews env).1) jitter n).result =
        .ok out := by
  obtain ⟨out, hout⟩ : ∃ out, (scrapeMapReviews env).1 = .ok out := by
    cases hbody : scrapeAttemptBody env with
    | error u =>
      cases u
      exact ⟨.failure techFailureMsg, by simp [scrapeMapReviews, h1, h2, hbody]⟩
    | ok r => exact ⟨r, by simp [scrapeMapReviews, h1, h2, hbody]⟩
  obtain ⟨hc, hr⟩ := withRetry_ok (fun _ => (scrapeMapReviews env).1) out hout
    jitter n hn
  exact ⟨out, hout, hc, hr⟩

/-- Witness for `returned_outcomes_not_retried` on the no-feed
environment. -/
theorem returned_outcomes_not_retried_witness :
    ∃ out, (scrapeMapReviews envNoFeed).1 = .ok out ∧
      (withRetry (fun _ => (scrapeMapReviews envNoFeed).1) (fun _ => 0)
        RETRY_ATTEMPTS).calls = 1 ∧
      (withRetry (fun _ => (scrapeMapReviews envNoFeed).1) (fun _ => 0)
        RETRY_ATTEMPTS).result = .ok out :=
  returned_outcomes_not_retried envNoFeed (fun _ => 0) RETRY_ATTEMPTS rfl rfl
    (by decide)

/-- C2 (counterexample): an attempt that consistently finds no reviews
button returns the `NoFeedFound` outcome; `withRetry` then invokes the
attempt exactly once — not `RETRY_ATTEMPTS = 3` times as the claim
states. -/
theorem retry_noFeed_counterexample :
    (scrapeMapReviews envNoFeed).1 = .ok (.failure noFeedMsg) ∧
    (withRetry (fun _ => (scrapeMapReviews envNoFeed).1) (fun _ => 0)
      RETRY_ATTEMPTS).calls = 1 ∧
    (withRetry (fun _ => (scrapeMapReviews envNoFeed).1) (fun _ => 0)
      RETRY_ATTEMPTS).calls ≠ RETRY_ATTEMPTS := by
  refine ⟨rfl, rfl, by decide⟩

/-- C9 (counterexample): nothing ties the random draws of different
attempts together, so two distinct attempts whose draws coincide present
byte-identical viewport geometry, refuting the claimed cross-attempt
distinctness. -/
theorem viewport_identical_counterexample :
    (0 : Nat) ≠ 1 ∧
    viewportAt (fun _ => (0, 0)) 0 = viewportAt (fun _ => (0, 0)) 1 :=
  ⟨by decide, rfl⟩

/-- C9 (amended): every attempt's user agent is drawn from the fixed
three-element pool, and the viewport is jittered independently within
`[1366, 1465] × [768, 867]`; identical geometry across attempts is
possible — the jitter only randomizes, it does not enforce distinctness. -/
theorem fingerprint_pool_and_jitter :
    (∀ r, chooseUserAgent r ∈ USER_AGENTS) ∧
    ∀ a b, 1366 ≤ (randomViewport a b).1 ∧ (randomViewport a b).1 < 1466 ∧
      768 ≤ (randomViewport a b).2 ∧ (randomViewport a b).2 < 868 := by
  constructor
  · intro r
    have hlen : USER_AGENTS.length = 3 := rfl
    rcases (show r % 3 = 0 ∨ r % 3 = 1 ∨ r % 3 = 2 by omega) with h | h | h <;>
      simp [chooseUserAgent, hlen, h, USER_AGENTS]
  · intro a b
    have h1 : a % 100 < 100 := Nat.mod_lt _ (by omega)
    have h2 : b % 100 < 100 := Nat.mod_lt _ (by omega)
    refine ⟨by simp [randomViewport], ?_, by simp [randomViewport], ?_⟩ <;>
      simp [randomViewport] <;> omega

/-- C8 (counterexample): `"a b"` and `"a%20b"` are equal after
case-folding and percent-decoding, yet the route's key percent-ENCODES the
lower-cased query, mapping them to the distinct keys `"a%20b"` and
`"a%2520b"` — distinct cache entries, refuting the claim. -/
theorem cacheKey_decode_counterexample :
    specNormalize queryRaw1 = specNormalize queryRaw2 ∧
    cacheKey queryRaw1 = "a%20b" ∧
    cacheKey queryRaw2 = "a%2520b" ∧
    cacheKey queryRaw1 ≠ cacheKey queryRaw2 := by
  refine ⟨rfl, rfl, rfl, by decide⟩

/-- The scrape tail never touches the cache. -/
theorem scrapeAndRespond_cacheAfter (cache : List (String × CacheRec))
    (envs : Nat → AttemptEnv) (jitter : Nat → Nat) :
    (scrapeAndRespond cache envs jitter).cacheAfter = cache := by
  unfold scrapeAndRespond
  cases h : (withRetry (fun i => (scrapeMapReviews (envs i)).1) jitter
      RETRY_ATTEMPTS).result with
  | error u => rfl
  | ok out => cases out <;> rfl

/-- The scrape tail always reports that a scrape was performed. -/
theorem scrapeAndRespond_scraped (cache : List (String × CacheRec))
    (envs : Nat → AttemptEnv) (jitter : Nat → Nat) :
    (scrapeAndRespond cache envs jitter).scraped = true := by
  unfold scrapeAndRespond
  cases h : (withRetry (fun i => (scrapeMapReviews (envs i)).1) jitter
      RETRY_ATTEMPTS).result with
  | error u => rfl
  | ok out => cases out <;> rfl

/-- C1: the route never writes to the cache — on every path (bad request,
cache hit, successful scrape, 404 outcome, exhausted retries, and with or
without `skipCache=true`) the cache after the request equals the cache
before it.  The spec's write-through after a successful scrape does not
exist in the code. -/
theorem GET_never_writes_cache (searchTerm skipCacheParam : Option String)
    (cache : List (String × CacheRec)) (now : Int)
    (envs : Nat → AttemptEnv) (jitter : Nat → Nat) :
    (GETHandler searchTerm skipCacheParam cache now envs jitter).cacheAfter =
      cache := by
  cases searchTerm with
  | none => rfl
  | some q =>
    unfold GETHandler
    dsimp only
    split
    · rfl
    · cases hl : lookupCache cache (cacheKey q) with
      | none => exact scrapeAndRespond_cacheAfter cache envs jitter
      | some entry =>
        dsimp only
        split
        · rfl
        · exact scrapeAndRespond_cacheAfter cache envs jitter

/-- C10: cache bypass requires the `skipCache` parameter to equal exactly
`"true"`; for every other value (including `"TRUE"`, `"1"`, the empty
string and an absent parameter) a fresh cache entry is served without
scraping, while exactly `"true"` forces a scrape even when a fresh entry
exists. -/
theorem skipCache_exact_true (q : String) (p : Option String)
    (cache : List (String × CacheRec)) (now : Int)
    (envs : Nat → AttemptEnv) (jitter : Nat → Nat) (entry : CacheRec)
    (hq : q ≠ "")
    (hlook : lookupCache cache (cacheKey q) = some entry)
    (hfresh : now - entry.timestamp < (CACHE_TTL : Int) * 1000) :
    (p ≠ some ("true") →
      GETHandler (some q) p cache now envs jitter =
        ⟨200, .ok entry.data, false, cache⟩) ∧
    (p = some ("true") →
      (GETHandler (some q) p cache now envs jitter).scraped = true) := by
  constructor
  · intro hp
    unfold GETHandler
    simp only [hq, if_false, hlook]
    rw [if_pos ⟨hp, hfresh⟩]
  · intro hp
    subst hp
    unfold GETHandler
    simp only [hq, if_false, hlook]
    rw [if_neg (by simp)]
    exact scrapeAndRespond_scraped cache envs jitter

/-- Witness for `skipCache_exact_true`: with the parameter absent and a
fresh entry present, the cached data is returned without scraping. -/
theorem skipCache_exact_true_witness :
    GETHandler (some ("cafe")) none cacheW 1000 (fun _ => envAllOk)
      (fun _ => 0) = ⟨200, .ok entryW.data, false, cacheW⟩ :=
  (skipCache_exact_true ("cafe") none cacheW 1000 (fun _ => envAllOk)
    (fun _ => 0) entryW (by decide) (by simp [cacheW, lookupCache])
    (by decide)).1 (by simp)

/-- Every Unicode scalar value is below `0x110000`. -/
theorem char_toNat_lt (c : Char) : c.toNat < 1114112 := by
  rcases c.valid with h | ⟨h1, h2⟩
  · exact lt_trans h (by norm_num)
  · exact h2

/-- Characters with equal code points are equal. -/
theorem char_toNat_inj {c1 c2 : Char} (h : c1.toNat = c2.toNat) : c1 = c2 :=
  Char.ext (UInt32.ext h)

/-- Hex digits of distinct values below 16 are distinct. -/
theorem hexDigitChar_inj :
    ∀ a, a < 16 → ∀ b, b < 16 → hexDigitChar a = hexDigitChar b → a = b := by
  decide

/-- A `%XX` escape at the head of a character stream determines the escaped byte and the remainder. -/
theorem percentEncodeByte_inj {b1 b2 : Nat} (h1 : b1 < 256) (h2 : b2 < 256)
    {s1 s2 : List Char}
    (h : percentEncodeByte b1 ++ s1 = percentEncodeByte b2 ++ s2) :
    b1 = b2 ∧ s1 = s2 := by
  simp only [percentEncodeByte, List.cons_append, List.nil_append,
    List.cons.injEq] at h
  obtain ⟨-, ha, hb, hs⟩ := h
  have e1 := hexDigitChar_inj _ (by omega) _ (by omega) ha
  have e2 := hexDigitChar_inj _ (by omega) _ (by omega) hb
  exact ⟨by omega, hs⟩

/-- A run of `%XX` escapes of equally many bytes determines the bytes and the remainder. -/
theorem tripleChain_inj :
    ∀ (bs1 bs2 : List Nat) (r1 r2 : List Char),
      (∀ b ∈ bs1, b < 256) → (∀ b ∈ bs2, b < 256) →
      bs1.length = bs2.length →
      bs1.flatMap percentEncodeByte ++ r1 =
        bs2.flatMap percentEncodeByte ++ r2 →
      bs1 = bs2 ∧ r1 = r2 := by
  intro bs1
  induction bs1 with
  | nil =>
    intro bs2 r1 r2 _ _ hlen h
    cases bs2 with
    | nil => exact ⟨rfl, by simpa using h⟩
    | cons b bs => simp at hlen
  | cons b1 bs1 ih =>
    intro bs2 r1 r2 hb1 hb2 hlen h
    cases bs2 with
    | nil => simp at hlen
    | cons b2 bs2 =>
      simp only [List.flatMap_cons, List.append_assoc] at h
      obtain ⟨e, h⟩ := percentEncodeByte_inj (hb1 b1 (by simp))
        (hb2 b2 (by simp)) h
      obtain ⟨e2, h2⟩ := ih bs2 r1 r2 (fun b hb => hb1 b (by simp [hb]))
        (fun b hb => hb2 b (by simp [hb])) (by simpa using hlen) h
      exact ⟨by rw [e, e2], h2⟩

/-- Branch equation of `utf8Bytes`: one-byte range. -/
theorem utf8Bytes_one {c : Char} (h : c.toNat < 128) :
    utf8Bytes c = [c.toNat] := by
  unfold utf8Bytes; rw [if_pos h]

/-- Branch equation of `utf8Bytes`: two-byte range. -/
theorem utf8Bytes_two {c : Char} (h1 : ¬ c.toNat < 128) (h2 : c.toNat < 2048) :
    utf8Bytes c = [192 + c.toNat / 64, 128 + c.toNat % 64] := by
  unfold utf8Bytes; rw [if_neg h1, if_pos h2]

/-- Branch equation of `utf8Bytes`: three-byte range. -/
theorem utf8Bytes_three {c : Char} (h1 : ¬ c.toNat < 128)
    (h2 : ¬ c.toNat < 2048) (h3 : c.toNat < 65536) :
    utf8Bytes c =
      [224 + c.toNat / 4096, 128 + c.toNat / 64 % 64, 128 + c.toNat % 64] := by
  unfold utf8Bytes; rw [if_neg h1, if_neg h2, if_pos h3]

/-- Branch equation of `utf8Bytes`: four-byte range. -/
theorem utf8Bytes_four {c : Char} (h1 : ¬ c.toNat < 128)
    (h2 : ¬ c.toNat < 2048) (h3 : ¬ c.toNat < 65536) :
    utf8Bytes c = [240 + c.toNat / 262144, 128 + c.toNat / 4096 % 64,
      128 + c.toNat / 64 % 64, 128 + c.toNat % 64] := by
  unfold utf8Bytes; rw [if_neg h1, if_neg h2, if_neg h3]

/-- The percent-escaped UTF-8 encoding of a character at the head of a stream determines the character and the remainder: the first byte of a UTF-8 sequence determines its length, and the byte ranges of the four lengths are disjoint. -/
theorem utf8Encode_inj_append {c1 c2 : Char} {r1 r2 : List Char}
    (h : (utf8Bytes c1).flatMap percentEncodeByte ++ r1 =
         (utf8Bytes c2).flatMap percentEncodeByte ++ r2) :
    c1 = c2 ∧ r1 = r2 := by
  have hv1 := char_toNat_lt c1
  have hv2 := char_toNat_lt c2
  by_cases hA1 : c1.toNat < 128 <;> [skip; by_cases hA2 : c1.toNat < 2048] <;>
    [skip; skip; by_cases hA3 : c1.toNat < 65536] <;>
  (by_cases hB1 : c2.toNat < 128 <;> [skip; by_cases hB2 : c2.toNat < 2048] <;>
    [skip; skip; by_cases hB3 : c2.toNat < 65536])
  · rw [utf8Bytes_one hA1, utf8Bytes_one hB1] at h
    obtain ⟨e, hr⟩ := tripleChain_inj _ _ _ _
      (by intro x hx; simp at hx; omega) (by intro x hx; simp at hx; omega)
      (by simp) h
    simp only [List.cons.injEq, and_true] at e
    exact ⟨char_toNat_inj (by omega), hr⟩
  · rw [utf8Bytes_one hA1, utf8Bytes_two hB1 hB2] at h
    simp only [List.flatMap_cons, List.flatMap_nil, List.append_nil,
      List.append_assoc] at h
    obtain ⟨e, -⟩ := percentEncodeByte_inj (by omega) (by omega) h
    exact absurd e (by omega)
  · rw [utf8Bytes_one hA1, utf8Bytes_three hB1 hB2 hB3] at h
    simp only [List.flatMap_cons, List.flatMap_nil, List.append_nil,
      List.append_assoc] at h
    obtain ⟨e, -⟩ := percentEncodeByte_inj (by omega) (by omega) h
    exact absurd e (by omega)
  · rw [utf8Bytes_one hA1, utf8Bytes_four hB1 hB2 hB3] at h
    simp only [List.flatMap_cons, List.flatMap_nil, List.append_nil,
      List.append_assoc] at h
    obtain ⟨e, -⟩ := percentEncodeByte_inj (by omega) (by omega) h
    exact absurd e (by omega)
  · rw [utf8Bytes_two hA1 hA2, utf8Bytes_one hB1] at h
    simp only [List.flatMap_cons, List.flatMap_nil, List.append_nil,
      List.append_assoc] at h
    obtain ⟨e, -⟩ := percentEncodeByte_inj (by omega) (by omega) h
    exact absurd e (by omega)
  · rw [utf8Bytes_two hA1 hA2, utf8Bytes_two hB1 hB2] at h
    obtain ⟨e, hr⟩ := tripleChain_inj _ _ _ _
      (by intro x hx; simp at hx; omega) (by intro x hx; simp at hx; omega)
      (by simp) h
    simp only [List.cons.injEq, and_true] at e
    exact ⟨char_toNat_inj (by omega), hr⟩
  · rw [utf8Bytes_two hA1 hA2, utf8Bytes_three hB1 hB2 hB3] at h
    simp only [List.flatMap_cons, List.flatMap_nil, List.append_nil,
      List.append_assoc] at h
    obtain ⟨e, -⟩ := percentEncodeByte_inj (by omega) (by omega) h
    exact absurd e (by omega)
  · rw [utf8Bytes_two hA1 hA2, utf8Bytes_four hB1 hB2 hB3] at h
    simp only [List.flatMap_cons, List.flatMap_nil, List.append_nil,
      List.append_assoc] at h
    obtain ⟨e, -⟩ := percentEncodeByte_inj (by omega) (by omega) h
    exact absurd e (by omega)
  · rw [utf8Bytes_three hA1 hA2 hA3, utf8Bytes_one hB1] at h
    simp only [List.flatMap_cons, List.flatMap_nil, List.append_nil,
      List.append_assoc] at h
    obtain ⟨e, -⟩ := percentEncodeByte_inj (by omega) (by omega) h
    exact absurd e (by omega)
  · rw [utf8Bytes_three hA1 hA2 hA3, utf8Bytes_two hB1 hB2] at h
    simp only [List.flatMap_cons, List.flatMap_nil, List.append_nil,
      List.append_assoc] at h
    obtain ⟨e, -⟩ := percentEncodeByte_inj (by omega) (by omega) h
    exact absurd e (by omega)
  · rw [utf8Bytes_three hA1 hA2 hA3, utf8Bytes_three hB1 hB2 hB3] at h
    obtain ⟨e, hr⟩ := tripleChain_inj _ _ _ _
      (by intro x hx; simp at hx; omega) (by intro x hx; simp at hx; omega)
      (by simp) h
    simp only [List.cons.injEq, and_true] at e
    exact ⟨char_toNat_inj (by omega), hr⟩
  · rw [utf8Bytes_three hA1 hA2 hA3, utf8Bytes_four hB1 hB2 hB3] at h
    simp only [List.flatMap_cons, List.flatMap_nil, List.append_nil,
      List.append_assoc] at h
    obtain ⟨e, -⟩ := percentEncodeByte_inj (by omega) (by omega) h
    exact absurd e (by omega)
  · rw [utf8Bytes_four hA1 hA2 hA3, utf8Bytes_one hB1] at h
    simp only [List.flatMap_cons, List.flatMap_nil, List.append_nil,
      List.append_assoc] at h
    obtain ⟨e, -⟩ := percentEncodeByte_inj (by omega) (by omega) h
    exact absurd e (by omega)
  · rw [utf8Bytes_four hA1 hA2 hA3, utf8Bytes_two hB1 hB2] at h
    simp only [List.flatMap_cons, List.flatMap_nil, List.append_nil,
      List.append_assoc] at h
    obtain ⟨e, -⟩ := percentEncodeByte_inj (by omega) (by omega) h
    exact absurd e (by omega)
  · rw [utf8Bytes_four hA1 hA2 hA3, utf8Bytes_three hB1 hB2 hB3] at h
    simp only [List.flatMap_cons, List.flatMap_nil, List.append_nil,
      List.append_assoc] at h
    obtain ⟨e, -⟩ := percentEncodeByte_inj (by omega) (by omega) h
    exact absurd e (by omega)
  · rw [utf8Bytes_four hA1 hA2 hA3, utf8Bytes_four hB1 hB2 hB3] at h
    obtain ⟨e, hr⟩ := tripleChain_inj _ _ _ _
      (by intro x hx; simp at hx; omega) (by intro x hx; simp at hx; omega)
      (by simp) h
    simp only [List.cons.injEq, and_true] at e
    exact ⟨char_toNat_inj (by omega), hr⟩

/-- Unreserved characters are never the escape character. -/
theorem unreserved_ne_percent {c : Char} (h : isUnreservedURI c = true) :
    c ≠ '%' := by
  intro he
  subst he
  exact absurd h (by decide)

/-- `utf8Bytes` never returns the empty list. -/
theorem utf8Bytes_cons (c : Char) :
    ∃ b bs, utf8Bytes c = b :: bs := by
  unfold utf8Bytes
  split_ifs <;> exact ⟨_, _, rfl⟩

/-- Branch equation of `encodeChar`: unreserved characters pass through. -/
theorem encodeChar_unres {c : Char} (h : isUnreservedURI c = true) :
    encodeChar c = [c] := by
  simp [encodeChar, h]

/-- Branch equation of `encodeChar`: reserved characters are escaped per UTF-8 byte. -/
theorem encodeChar_res {c : Char} (h : isUnreservedURI c = false) :
    encodeChar c = (utf8Bytes c).flatMap percentEncodeByte := by
  simp [encodeChar, h]

/-- The encoding of a character at the head of a stream determines the character and the remainder: `encodeURIComponent` output is a prefix code. -/
theorem encodeChar_inj_append {c1 c2 : Char} {r1 r2 : List Char}
    (h : encodeChar c1 ++ r1 = encodeChar c2 ++ r2) : c1 = c2 ∧ r1 = r2 := by
  cases hu1 : isUnreservedURI c1 <;> cases hu2 : isUnreservedURI c2
  · rw [encodeChar_res hu1, encodeChar_res hu2] at h
    exact utf8Encode_inj_append h
  · exfalso
    rw [encodeChar_res hu1, encodeChar_unres hu2] at h
    obtain ⟨b, bs, hbs⟩ := utf8Bytes_cons c1
    rw [hbs] at h
    simp only [List.flatMap_cons, percentEncodeByte, List.cons_append,
      List.append_assoc, List.cons.injEq] at h
    exact unreserved_ne_percent hu2 h.1.symm
  · exfalso
    rw [encodeChar_unres hu1, encodeChar_res hu2] at h
    obtain ⟨b, bs, hbs⟩ := utf8Bytes_cons c2
    rw [hbs] at h
    simp only [List.flatMap_cons, percentEncodeByte, List.cons_append,
      List.append_assoc, List.cons.injEq] at h
    exact unreserved_ne_percent hu1 h.1
  · rw [encodeChar_unres hu1, encodeChar_unres hu2] at h
    simp only [List.cons_append, List.nil_append, List.cons.injEq] at h
    exact h

/-- Every character encodes to a non-empty string. -/
theorem encodeChar_ne_nil (c : Char) : encodeChar c ≠ [] := by
  unfold encodeChar
  split_ifs with hu
  · simp
  · obtain ⟨b, bs, hbs⟩ := utf8Bytes_cons c
    rw [hbs]
    simp [percentEncodeByte]

/-- Character-list level injectivity of the `encodeURIComponent` encoding. -/
theorem encodeChars_inj :
    ∀ l1 l2 : List Char, l1.flatMap encodeChar = l2.flatMap encodeChar →
      l1 = l2 := by
  intro l1
  induction l1 with
  | nil =>
    intro l2 h
    cases l2 with
    | nil => rfl
    | cons c l2 =>
      exfalso
      simp only [List.flatMap_nil, List.flatMap_cons] at h
      rcases List.append_eq_nil.mp h.symm with ⟨hnil, -⟩
      exact encodeChar_ne_nil c hnil
  | cons c1 l1 ih =>
    intro l2 h
    cases l2 with
    | nil =>
      exfalso
      simp only [List.flatMap_nil, List.flatMap_cons] at h
      rcases List.append_eq_nil.mp h with ⟨hnil, -⟩
      exact encodeChar_ne_nil c1 hnil
    | cons c2 l2 =>
      simp only [List.flatMap_cons] at h
      obtain ⟨hc, hr⟩ := encodeChar_inj_append h
      rw [hc, ih l2 hr]

/-- `encodeURIComponent` is injective. -/
theorem encodeURIComponent_inj {s1 s2 : String}
    (h : encodeURIComponent s1 = encodeURIComponent s2) : s1 = s2 := by
  cases s1 with
  | mk l1 =>
    cases s2 with
    | mk l2 =>
      have hd : l1.flatMap encodeChar = l2.flatMap encodeChar :=
        congrArg String.data h
      rw [encodeChars_inj l1 l2 hd]

/-- C8 (amended): the cache key used by the lookup is
`encodeURIComponent(searchTerm.toLowerCase())` — the lower-cased query is
percent-ENcoded, never decoded — so two raw queries map to the same cache
entry precisely when they are equal after case-folding.  Percent-encoded
variants of the same decoded query map to different keys (see the
counterexample). -/
theorem cacheKey_caseFold_iff (q1 q2 : String) :
    cacheKey q1 = cacheKey q2 ↔ jsToLower q1 = jsToLower q2 := by
  constructor
  · intro h
    unfold cacheKey at h
    exact encodeURIComponent_inj h
  · intro h
    unfold cacheKey
    rw [h]

end ReviewCollector
